import Mathlib

/-!
Verification of the schema layer of a background job-execution platform
(`packages/internal/src/schemas/api.ts`) against its specification.

The zod schemas are shallowly embedded: JavaScript values flowing through the
API boundary are modelled by the inductive type `Json` below, and every zod
schema `XSchema` becomes an executable function `X_parse : Json → Option ⟨its
output type⟩` returning `none` exactly when `XSchema.parse` would fail (zod
collects issues across all keys of an object while these functions stop at the
first invalid field; acceptance and the parsed value agree).  JSON numbers are
modelled as integers: no claim under verification involves fractional values.
Optional (`undefined`) fields are modelled by `Option`; a `null`-or-absent
field collapses to `none` (noted where it happens).
-/

/-- A JSON value (the deserialized-JSON universe the schemas operate on). -/
inductive Json where
  | null
  | bool (b : Bool)
  | num (n : Int)
  | str (s : String)
  | arr (elems : List Json)
  | obj (fields : List (String × Json))

mutual

/-- Structural equality test on JSON values. -/
def Json.beq : Json → Json → Bool
  | .null, .null => true
  | .bool a, .bool b => a == b
  | .num a, .num b => a == b
  | .str a, .str b => a == b
  | .arr as, .arr bs => Json.beqList as bs
  | .obj as, .obj bs => Json.beqFields as bs
  | _, _ => false

/-- Elementwise equality test on JSON arrays. -/
def Json.beqList : List Json → List Json → Bool
  | [], [] => true
  | a :: as, b :: bs => Json.beq a b && Json.beqList as bs
  | _, _ => false

/-- Fieldwise equality test on JSON objects (order-sensitive). -/
def Json.beqFields : List (String × Json) → List (String × Json) → Bool
  | [], [] => true
  | (k, v) :: fs, (k', v') :: gs => k == k' && Json.beq v v' && Json.beqFields fs gs
  | _, _ => false

end

instance : BEq Json := ⟨Json.beq⟩

/-- Extract the fields of a JSON object. -/
def Json.asObj : Json → Option (List (String × Json))
  | .obj f => some f
  | _ => none

/-- Extract a JSON string. -/
def Json.asStr : Json → Option String
  | .str s => some s
  | _ => none

/-- Extract a JSON boolean. -/
def Json.asBool : Json → Option Bool
  | .bool b => some b
  | _ => none

/-- Extract the elements of a JSON array. -/
def Json.asArr : Json → Option (List Json)
  | .arr a => some a
  | _ => none

/-- Look up a key in a JSON object's field list (first match, as JavaScript
property access on the parsed object). `none` models an absent (`undefined`)
property. -/
def jLookup (flds : List (String × Json)) (k : String) : Option Json :=
  match flds with
  | [] => none
  | (k', v) :: rest => if k' == k then some v else jLookup rest k

/-- Models `f.optional()` applied to a possibly-absent field (`zodOptional o f`): an absent field parses to `none`, a present one must satisfy `f`. -/
def zodOptional (o : Option Json) (f : Json → Option α) : Option (Option α) :=
  match o with
  | none => some none
  | some v => (f v).map some

/-- Models `f.default(d)` (`zodDefault o f d`): an absent field parses to the
default `d`, a present one must satisfy `f`. -/
def zodDefault (o : Option Json) (f : Json → Option α) (d : α) : Option α :=
  match o with
  | none => some d
  | some v => f v

/-- All-strings extraction from a list of JSON values
(`z.array(z.string())`). -/
def mapOptStr : List Json → Option (List String)
  | [] => some []
  | x :: xs =>
    match x.asStr, mapOptStr xs with
    | some s, some ss => some (s :: ss)
    | _, _ => none

/-- Models `z.record(z.string())`: a JSON object all of whose values are strings,
returned as a key/value list. -/
def jsonRecordString : Json → Option (List (String × String))
  | .obj fs => recordStringFields fs
  | _ => none
where
  recordStringFields : List (String × Json) → Option (List (String × String))
    | [] => some []
    | (k, v) :: rest =>
      match v.asStr, recordStringFields rest with
      | some s, some ss => some ((k, s) :: ss)
      | _, _ => none

/-- Two-digit lowercase hex rendering of a byte, for control-character
escapes in JSON string output. -/
def hexDigit (n : Nat) : Char :=
  if n < 10 then Char.ofNat (48 + n) else Char.ofNat (87 + n)

/-- JSON string-literal escaping of one character, as `JSON.stringify`
performs it. -/
def escapeJsonChar (c : Char) : String :=
  if c = '\"' then "\\\""
  else if c = '\\' then "\\\\"
  else if c = '\n' then "\\n"
  else if c = '\r' then "\\r"
  else if c = '\t' then "\\t"
  else if c = Char.ofNat 8 then "\\b"
  else if c = Char.ofNat 12 then "\\f"
  else if c.toNat < 32 then
    "\\u00" ++ String.mk [hexDigit (c.toNat / 16), hexDigit (c.toNat % 16)]
  else String.singleton c

/-- A JSON string literal, quotes and escapes included. -/
def jsonStringifyString (s : String) : String :=
  "\"" ++ String.join (s.data.map escapeJsonChar) ++ "\""

mutual

/-- Modelled from the spec: `JSON.stringify` (an ECMAScript builtin, outside
this repository) restricted to defined JSON values — the canonical compact
serialization without extra whitespace. -/
def jsonStringify : Json → String
  | .null => "null"
  | .bool true => "true"
  | .bool false => "false"
  | .num n => toString n
  | .str s => jsonStringifyString s
  | .arr xs => "[" ++ jsonStringifyArr xs ++ "]"
  | .obj fs => "\x7b" ++ jsonStringifyObj fs ++ "\x7d"

/-- Comma-separated serialization of array elements. -/
def jsonStringifyArr : List Json → String
  | [] => ""
  | [x] => jsonStringify x
  | x :: y :: xs => jsonStringify x ++ "," ++ jsonStringifyArr (y :: xs)

/-- Comma-separated serialization of object fields. -/
def jsonStringifyObj : List (String × Json) → String
  | [] => ""
  | [(k, v)] => jsonStringifyString k ++ ":" ++ jsonStringify v
  | (k, v) :: g :: fs =>
    jsonStringifyString k ++ ":" ++ jsonStringify v ++ "," ++ jsonStringifyObj (g :: fs)

end

/-- Applies `JSON.stringify` to a possibly-`undefined` argument:
`JSON.stringify(undefined)` is `undefined` (not a string). -/
def jsonStringifyOpt : Option Json → Option String
  | none => none
  | some v => some (jsonStringify v)

/-- Skip JSON whitespace. -/
def skipWs : List Char → List Char
  | c :: cs => if c = ' ' || c = '\n' || c = '\t' || c = '\r' then skipWs cs else c :: cs
  | [] => []

/-- Split a maximal run of decimal digits off the front of the input. -/
def takeDigits : List Char → (List Char × List Char)
  | c :: cs =>
    if c.isDigit then
      let p := takeDigits cs
      (c :: p.1, p.2)
    else ([], c :: cs)
  | [] => ([], [])

/-- Numeric value of a run of decimal digits. -/
def digitsToNat (ds : List Char) : Nat :=
  ds.foldl (fun a c => a * 10 + (c.toNat - 48)) 0

/-- Parse a JSON number (integer; this embedding models JSON numbers as
integers, see the header note). -/
def parseJsonNum (cs : List Char) : Option (Json × List Char) :=
  match cs with
  | '-' :: cs' =>
    let p := takeDigits cs'
    if p.1.isEmpty then none else some (.num (-(digitsToNat p.1 : Int)), p.2)
  | _ =>
    let p := takeDigits cs
    if p.1.isEmpty then none else some (.num (digitsToNat p.1 : Int), p.2)

/-- Numeric value of a hex digit, if the character is one. -/
def hexVal (c : Char) : Option Nat :=
  if '0' ≤ c ∧ c ≤ '9' then some (c.toNat - 48)
  else if 'a' ≤ c ∧ c ≤ 'f' then some (c.toNat - 87)
  else if 'A' ≤ c ∧ c ≤ 'F' then some (c.toNat - 55)
  else none

/-- Parse the body of a JSON string literal (after the opening quote),
unescaping, up to and over the closing quote. -/
def parseJsonStringChars : List Char → Option (List Char × List Char)
  | '\"' :: rest => some ([], rest)
  | '\\' :: esc :: rest =>
    match esc with
    | '\"' => (parseJsonStringChars rest).map (fun p => ('\"' :: p.1, p.2))
    | '\\' => (parseJsonStringChars rest).map (fun p => ('\\' :: p.1, p.2))
    | '/' => (parseJsonStringChars rest).map (fun p => ('/' :: p.1, p.2))
    | 'n' => (parseJsonStringChars rest).map (fun p => ('\n' :: p.1, p.2))
    | 't' => (parseJsonStringChars rest).map (fun p => ('\t' :: p.1, p.2))
    | 'r' => (parseJsonStringChars rest).map (fun p => ('\r' :: p.1, p.2))
    | 'b' => (parseJsonStringChars rest).map (fun p => (Char.ofNat 8 :: p.1, p.2))
    | 'f' => (parseJsonStringChars rest).map (fun p => (Char.ofNat 12 :: p.1, p.2))
    | 'u' =>
      match rest with
      | a :: b :: c :: d :: rest' =>
        match hexVal a, hexVal b, hexVal c, hexVal d with
        | some ha, some hb, some hc, some hd =>
          (parseJsonStringChars rest').map
            (fun p => (Char.ofNat (((ha * 16 + hb) * 16 + hc) * 16 + hd) :: p.1, p.2))
        | _, _, _, _ => none
      | _ => none
    | _ => none
  | c :: rest =>
    if c.toNat < 32 then none
    else (parseJsonStringChars rest).map (fun p => (c :: p.1, p.2))
  | [] => none

mutual

/-- Parse one JSON value (fuel-bounded recursive descent); leading whitespace
allowed, returns the remaining input. -/
def parseJsonVal : Nat → List Char → Option (Json × List Char)
  | 0, _ => none
  | fuel + 1, cs =>
    match skipWs cs with
    | 'n' :: 'u' :: 'l' :: 'l' :: rest => some (.null, rest)
    | 't' :: 'r' :: 'u' :: 'e' :: rest => some (.bool true, rest)
    | 'f' :: 'a' :: 'l' :: 's' :: 'e' :: rest => some (.bool false, rest)
    | '\"' :: rest => (parseJsonStringChars rest).map (fun p => (.str (String.mk p.1), p.2))
    | '[' :: rest => parseJsonArr fuel (skipWs rest)
    | '\x7b' :: rest => parseJsonObj fuel (skipWs rest)
    | cs' => parseJsonNum cs'

/-- Parse the elements of a JSON array (input after `[`, whitespace skipped). -/
def parseJsonArr : Nat → List Char → Option (Json × List Char)
  | 0, _ => none
  | fuel + 1, cs =>
    match cs with
    | ']' :: rest => some (.arr [], rest)
    | _ =>
      match parseJsonVal fuel cs with
      | none => none
      | some (v, rest) =>
        (parseJsonArrRest fuel (skipWs rest)).map (fun p => (.arr (v :: p.1), p.2))

/-- Parse `, element`* `]` after the first array element. -/
def parseJsonArrRest : Nat → List Char → Option (List Json × List Char)
  | 0, _ => none
  | fuel + 1, cs =>
    match cs with
    | ']' :: rest => some ([], rest)
    | ',' :: rest =>
      match parseJsonVal fuel rest with
      | none => none
      | some (v, rest') =>
        (parseJsonArrRest fuel (skipWs rest')).map (fun p => (v :: p.1, p.2))
    | _ => none

/-- Parse the fields of a JSON object (input after the opening brace,
whitespace skipped). -/
def parseJsonObj : Nat → List Char → Option (Json × List Char)
  | 0, _ => none
  | fuel + 1, cs =>
    match cs with
    | '\x7d' :: rest => some (.obj [], rest)
    | _ =>
      match parseJsonField fuel cs with
      | none => none
      | some (kv, rest) =>
        (parseJsonObjRest fuel (skipWs rest)).map (fun p => (.obj (kv :: p.1), p.2))

/-- Parse one `"key": value` object field. -/
def parseJsonField : Nat → List Char → Option ((String × Json) × List Char)
  | 0, _ => none
  | fuel + 1, cs =>
    match cs with
    | '\"' :: rest =>
      match parseJsonStringChars rest with
      | none => none
      | some (kcs, rest') =>
        match skipWs rest' with
        | ':' :: rest'' =>
          match parseJsonVal fuel rest'' with
          | none => none
          | some (v, r) => some ((String.mk kcs, v), r)
        | _ => none
    | _ => none

/-- Parse `, field`* and the closing brace after the first object field. -/
def parseJsonObjRest : Nat → List Char → Option (List (String × Json) × List Char)
  | 0, _ => none
  | fuel + 1, cs =>
    match cs with
    | '\x7d' :: rest => some ([], rest)
    | ',' :: rest =>
      match parseJsonField fuel (skipWs rest) with
      | none => none
      | some (kv, rest') =>
        (parseJsonObjRest fuel (skipWs rest')).map (fun p => (kv :: p.1, p.2))
    | _ => none

end

/-- Modelled from the spec: ECMAScript `JSON.parse` (a builtin outside this
repository), restricted to integer numerics as noted in the header.  Returns
`none` exactly when `JSON.parse` would throw a `SyntaxError`. -/
def jsonParse (s : String) : Option Json :=
  match parseJsonVal (s.length + 1) s.data with
  | some (v, rest) => if (skipWs rest).isEmpty then some v else none
  | none => none

/-- The composite `(v) => JSON.parse(JSON.stringify(v))` applied to a
possibly-absent (`undefined`) value: `JSON.stringify(undefined)` is
`undefined`, and `JSON.parse` coerces that argument to the string
`"undefined"`, which is not valid JSON, so the absent case throws. -/
def jsonRoundtripOpt (o : Option Json) : Option Json :=
  match jsonStringifyOpt o with
  | none => jsonParse "undefined"
  | some s => jsonParse s

/-- Modelled from the spec: `DeserializedJsonSchema` (`json.ts`, not under
`src/`) — the schema accepting every deserialized JSON value.  In this
embedding every `Json` is such a value, so the parse is total. -/
def DeserializedJson_parse (j : Json) : Option Json := some j

/-- Modelled from the spec: `SerializableJsonSchema` (`json.ts`, not under
`src/`) — JSON-serializable values, modelled by the same `Json` universe. -/
def SerializableJson_parse (j : Json) : Option Json := some j

/-- Parse exactly `n` decimal digits off the front of the input. -/
def parseFixedDigits (n : Nat) (cs : List Char) : Option (Nat × List Char) :=
  go n cs 0
where
  go : Nat → List Char → Nat → Option (Nat × List Char)
    | 0, cs, acc => some (acc, cs)
    | k + 1, c :: cs, acc =>
      if c.isDigit then go k cs (acc * 10 + (c.toNat - 48)) else none
    | _ + 1, [], _ => none

/-- Days since the epoch of a proleptic-Gregorian civil date
(the standard era-based civil-from-days inverse). -/
def daysFromCivil (y : Int) (m d : Nat) : Int :=
  let y' : Int := if m ≤ 2 then y - 1 else y
  let era : Int := (if 0 ≤ y' then y' else y' - 399) / 400
  let yoe : Int := y' - era * 400
  let mp : Int := ((m : Int) + 9) % 12
  let doy : Int := (153 * mp + 2) / 5 + (d : Int) - 1
  let doe : Int := yoe * 365 + yoe / 4 - yoe / 100 + doy
  era * 146097 + doe - 719468

/-- Parse a date-time string the way `new Date(string)` treats the ECMAScript
date-time string format (simplified): `YYYY-MM-DD`, optionally followed by
`THH:MM:SS` with an optional `.sss` part and a trailing `Z`; returns epoch
milliseconds.  JavaScript engines also accept implementation-specific formats
and numeric timezone offsets; no claim under verification exercises those. -/
def parseISODate (s : String) : Option Int :=
  match parseFixedDigits 4 s.data with
  | some (y, '-' :: r1) =>
    match parseFixedDigits 2 r1 with
    | some (mo, '-' :: r2) =>
      match parseFixedDigits 2 r2 with
      | some (d, r3) =>
        if mo < 1 || 12 < mo || d < 1 || 31 < d then none
        else
          let base := daysFromCivil (y : Int) mo d * 86400000
          match r3 with
          | [] => some base
          | 'T' :: r4 =>
            match parseFixedDigits 2 r4 with
            | some (h, ':' :: r5) =>
              match parseFixedDigits 2 r5 with
              | some (mi, ':' :: r6) =>
                match parseFixedDigits 2 r6 with
                | some (sec, r7) =>
                  if 23 < h || 59 < mi || 59 < sec then none
                  else
                    let time : Int := base + h * 3600000 + mi * 60000 + sec * 1000
                    match r7 with
                    | ['Z'] => some time
                    | '.' :: r8 =>
                      match parseFixedDigits 3 r8 with
                      | some (ms, ['Z']) => some (time + ms)
                      | _ => none
                    | _ => none
                | _ => none
              | _ => none
            | _ => none
          | _ => none
      | _ => none
    | _ => none
  | _ => none

/-- Models `z.coerce.date()`: `new Date(input)`, failing on an invalid date.
Covers the input shapes the schemas can receive: numbers are epoch
milliseconds (valid within the ECMAScript range of 8.64e15 from the epoch),
strings go through the date-time string format, `null` and booleans coerce to
0 and 0/1, and arrays and objects are invalid (an absent field — `undefined`
— is handled by the callers and is likewise invalid). -/
def coerceDate : Json → Option Int
  | .num n => if n.natAbs ≤ 8640000000000000 then some n else none
  | .str s => parseISODate s
  | .null => some 0
  | .bool b => some (if b then 1 else 0)
  | _ => none

/-- zod's `z.string().datetime()` check: the anchored pattern
four digits `-` two `-` two `T` two `:` two `:` two, an optional fractional
part of at least one digit, and a terminal `Z`. -/
def isZodDatetime (s : String) : Bool :=
  match parseFixedDigits 4 s.data with
  | some (_, '-' :: r1) =>
    match parseFixedDigits 2 r1 with
    | some (_, '-' :: r2) =>
      match parseFixedDigits 2 r2 with
      | some (_, 'T' :: r3) =>
        match parseFixedDigits 2 r3 with
        | some (_, ':' :: r4) =>
          match parseFixedDigits 2 r4 with
          | some (_, ':' :: r5) =>
            match parseFixedDigits 2 r5 with
            | some (_, ['Z']) => true
            | some (_, '.' :: r6) =>
              let p := takeDigits r6
              !p.1.isEmpty && p.2 == ['Z']
            | _ => false
          | _ => false
        | _ => false
      | _ => false
    | _ => false
  | _ => false

/-- Approximates zod's `.url()` check (`new URL(input)` succeeding): an
ASCII-letter-led scheme, a colon, and a nonempty remainder which for
`//`-authority forms must start with a host character.  WHATWG URL parsing
accepts and rejects more exotic inputs; the claims only use plainly valid
URLs. -/
def isValidURL (s : String) : Bool :=
  match s.data with
  | c :: rest => c.isAlpha && checkAfterScheme rest
  | [] => false
where
  checkAfterScheme : List Char → Bool
    | ':' :: r =>
      match r with
      | '/' :: '/' :: h =>
        match h with
        | [] => false
        | '/' :: _ => false
        | _ => true
      | _ :: _ => true
      | [] => false
    | c :: r => (c.isAlphanum || c = '+' || c = '-' || c = '.') && checkAfterScheme r
    | [] => false

/-- Modelled from the spec: `ConnectionAuthSchema` (`connections.ts`, not
under `src/`) — the resolved authentication material for a named connection
(§2 Connection Resolver, §3 Connection).  The spec's HTTP-source headers carry
its JSON-*serialized* form, so the descriptor itself is an object, modelled
with its auth type and access token. -/
structure ConnectionAuth where
  type : String
  accessToken : String
deriving Repr, DecidableEq

/-- Modelled from the spec: parsing a JSON value as a `ConnectionAuth`
descriptor.  As any zod object schema, it accepts only objects — in
particular every plain JSON string is rejected. -/
def ConnectionAuth_parse (j : Json) : Option ConnectionAuth :=
  j.asObj.bind fun flds =>
  ((jLookup flds "type").bind Json.asStr).bind fun ty =>
  ((jLookup flds "accessToken").bind Json.asStr).bind fun tok =>
  some ⟨ty, tok⟩

/-- Output of `HttpEventSourceSchema`.  The schema is built by extending
`UpdateHttpEventSourceBodySchema` — which is `RegisterHttpEventSourceBodySchema`
with `key` *omitted* plus `secret`/`data`/`active` — with `id`, a required
`active`, and a `url`; consequently it has no `key` field. -/
structure HttpEventSource where
  connectionId : Option String
  secret : Option String
  data : Option Json
  active : Bool
  id : String
  url : String

/-- Parse function of `HttpEventSourceSchema`. -/
def HttpEventSource_parse (j : Json) : Option HttpEventSource :=
  j.asObj.bind fun flds =>
  (zodOptional (jLookup flds "connectionId") Json.asStr).bind fun connectionId =>
  (zodOptional (jLookup flds "secret") Json.asStr).bind fun secret =>
  (zodOptional (jLookup flds "data") SerializableJson_parse).bind fun data =>
  ((jLookup flds "active").bind Json.asBool).bind fun active =>
  ((jLookup flds "id").bind Json.asStr).bind fun id =>
  ((jLookup flds "url").bind Json.asStr).bind fun url =>
  if isValidURL url then some ⟨connectionId, secret, data, active, id, url⟩ else none

/-- Output of `HttpSourceRequestHeadersSchema` (field names are the
`x-trigger-…` header names with the prefix dropped). -/
structure HttpSourceRequestHeaders where
  key : String
  auth : Option ConnectionAuth
  url : String
  method : String
  headers : List (String × String)
  secret : Option String
deriving Repr, DecidableEq

/-- Parse function of `HttpSourceRequestHeadersSchema`.  The `x-trigger-auth` field is
`z.string().optional().transform((s) => (s ? ConnectionAuthSchema.parse(s) :
undefined))`: the transform hands the header *string itself* to
`ConnectionAuthSchema.parse` (there is no `JSON.parse`, unlike the
`x-trigger-headers` field below it), so an empty or absent header yields
`undefined` and any non-empty header string is parsed as a descriptor. -/
def HttpSourceRequestHeaders_parse (j : Json) : Option HttpSourceRequestHeaders :=
  j.asObj.bind fun flds =>
  ((jLookup flds "x-trigger-key").bind Json.asStr).bind fun key =>
  (zodOptional (jLookup flds "x-trigger-auth") Json.asStr).bind fun authStr =>
  (match authStr with
   | none => some none
   | some s => if s = "" then some none else (ConnectionAuth_parse (Json.str s)).map some
   : Option (Option ConnectionAuth)).bind fun auth =>
  ((jLookup flds "x-trigger-url").bind Json.asStr).bind fun url =>
  ((jLookup flds "x-trigger-method").bind Json.asStr).bind fun method =>
  ((jLookup flds "x-trigger-headers").bind Json.asStr).bind fun headersStr =>
  ((jsonParse headersStr).bind jsonRecordString).bind fun headers =>
  (zodOptional (jLookup flds "x-trigger-secret") Json.asStr).bind fun secret =>
  some ⟨key, auth, url, method, headers, secret⟩

/-- Output of `RawEventSchema`. -/
structure RawEvent where
  id : String
  name : String
  source : String
  payload : Json
  context : Option Json
  timestamp : Option String

/-- Parse function of `RawEventSchema`: `id` is `z.string().default(() => ulid())`: the
schema calls the ulid generator when the field is absent; `freshId` is the
value that call produces.  `source` defaults to the literal
`"trigger.dev"`. -/
def RawEvent_parse (freshId : String) (j : Json) : Option RawEvent :=
  j.asObj.bind fun flds =>
  (zodDefault (jLookup flds "id") Json.asStr freshId).bind fun id =>
  ((jLookup flds "name").bind Json.asStr).bind fun name =>
  (zodDefault (jLookup flds "source") Json.asStr "trigger.dev").bind fun source =>
  ((jLookup flds "payload").bind DeserializedJson_parse).bind fun payload =>
  (zodOptional (jLookup flds "timestamp")
      (fun v => v.asStr.bind fun s => if isZodDatetime s then some s else none)).bind
    fun timestamp =>
  some ⟨id, name, source, payload, jLookup flds "context", timestamp⟩

/-- Output of `ApiEventLogSchema`: `id`, `name`, `payload`, a nullable
optional `context`, a *required* coerced-date `timestamp`, and nullable
optional coerced-date `deliverAt` / `deliveredAt`.  There is no `source`
field.  A `null` value of a nullable field is collapsed to `none` here. -/
structure ApiEventLog where
  id : String
  name : String
  payload : Json
  context : Option Json
  timestamp : Int
  deliverAt : Option Int
  deliveredAt : Option Int

/-- Models `z.coerce.date().optional().nullable()`: `null` and absent values pass
through (both `none` here); anything else must coerce to a valid date. -/
def optNullableDate (o : Option Json) : Option (Option Int) :=
  match o with
  | none => some none
  | some .null => some none
  | some v => (coerceDate v).map some

/-- Parse function of `ApiEventLogSchema`. -/
def ApiEventLog_parse (j : Json) : Option ApiEventLog :=
  j.asObj.bind fun flds =>
  ((jLookup flds "id").bind Json.asStr).bind fun id =>
  ((jLookup flds "name").bind Json.asStr).bind fun name =>
  ((jLookup flds "payload").bind DeserializedJson_parse).bind fun payload =>
  (some (jLookup flds "context") : Option (Option Json)).bind fun context =>
  ((jLookup flds "timestamp").bind coerceDate).bind fun timestamp =>
  (optNullableDate (jLookup flds "deliverAt")).bind fun deliverAt =>
  (optNullableDate (jLookup flds "deliveredAt")).bind fun deliveredAt =>
  some ⟨id, name, payload, context, timestamp, deliverAt, deliveredAt⟩

/-- Output of `SecureStringSchema` (the `__secureString: true` literal tag is
checked during parsing and carries no information). -/
structure SecureString where
  strings : List String
  interpolations : List String
deriving Repr, DecidableEq

/-- Parse function of `SecureStringSchema`: an object with the `__secureString: true`
tag and two arrays of strings.  The schema imposes no relation between the
lengths of the two arrays. -/
def SecureString_parse (j : Json) : Option SecureString :=
  j.asObj.bind fun flds =>
  (match jLookup flds "__secureString" with
   | some (.bool true) => some ()
   | _ => none
   : Option Unit).bind fun _ =>
  ((jLookup flds "strings").bind Json.asArr).bind fun ss =>
  (mapOptStr ss).bind fun strings =>
  ((jLookup flds "interpolations").bind Json.asArr).bind fun is' =>
  (mapOptStr is').bind fun interpolations =>
  some ⟨strings, interpolations⟩

/-- Modelled from the spec: `TaskSchema` (`tasks.ts`, not under `src/`) — a
Task record `{id, name, idempotencyKey, params?, output?, status, delayUntil?,
noop}` (§3), with `status` one of the spec's task states (§4.1). -/
structure ModelTask where
  id : String
  name : String
  idempotencyKey : String
  status : String
  noop : Bool
  params : Option Json
  output : Option Json
  delayUntil : Option Int

/-- Modelled from the spec: parsing a JSON value as a Task record. -/
def Task_parse (j : Json) : Option ModelTask :=
  j.asObj.bind fun flds =>
  ((jLookup flds "id").bind Json.asStr).bind fun id =>
  ((jLookup flds "name").bind Json.asStr).bind fun name =>
  ((jLookup flds "idempotencyKey").bind Json.asStr).bind fun idempotencyKey =>
  ((jLookup flds "status").bind Json.asStr).bind fun status =>
  (if status = "pending" || status = "running" || status = "completed" || status = "errored"
    then some () else none).bind fun _ =>
  ((jLookup flds "noop").bind Json.asBool).bind fun noop =>
  (zodOptional (jLookup flds "params") DeserializedJson_parse).bind fun params =>
  (zodOptional (jLookup flds "output") DeserializedJson_parse).bind fun output =>
  (zodOptional (jLookup flds "delayUntil") coerceDate).bind fun delayUntil =>
  some ⟨id, name, idempotencyKey, status, noop, params, output, delayUntil⟩

/-- Output of `ExecuteJobResponseSchema`: `executionId`, a boolean
`completed`, and *independently* optional `output` and `task` fields — the
schema does not tie the optional fields to the value of `completed`. -/
structure ExecuteJobResponse where
  executionId : String
  completed : Bool
  output : Option Json
  task : Option ModelTask

/-- Parse function of `ExecuteJobResponseSchema`. -/
def ExecuteJobResponse_parse (j : Json) : Option ExecuteJobResponse :=
  j.asObj.bind fun flds =>
  ((jLookup flds "executionId").bind Json.asStr).bind fun executionId =>
  ((jLookup flds "completed").bind Json.asBool).bind fun completed =>
  (zodOptional (jLookup flds "output") DeserializedJson_parse).bind fun output =>
  (zodOptional (jLookup flds "task") Task_parse).bind fun task =>
  some ⟨executionId, completed, output, task⟩

/-- Output of `CreateExecutionResponseBodySchema`: a discriminated union on
the `ok` literal — success carries `data.id`, failure carries `error`. -/
inductive CreateExecutionResponseBody where
  | ok (id : String)
  | err (error : String)
deriving Repr, DecidableEq

/-- Parse function of `CreateExecutionResponseBodySchema`
(`z.discriminatedUnion("ok", [OkSchema, ErrorSchema])`): the `ok`
discriminator selects the variant, whose required fields must then be
present — an `ok: true` object without `data.id` or an `ok: false` object
without `error` is rejected. -/
def CreateExecutionResponseBody_parse (j : Json) : Option CreateExecutionResponseBody :=
  j.asObj.bind fun flds =>
  match jLookup flds "ok" with
  | some (.bool true) =>
    ((jLookup flds "data").bind Json.asObj).bind fun dataFlds =>
    ((jLookup dataFlds "id").bind Json.asStr).bind fun id =>
    some (.ok id)
  | some (.bool false) =>
    ((jLookup flds "error").bind Json.asStr).bind fun e =>
    some (.err e)
  | _ => none

/-- Output of `IOTaskSchema`.  `elements` entries are display elements
(`DisplayElementSchema`, `elements.ts`, not under `src/`): the spec references
them without constraining their shape, so they are modelled as JSON values. -/
structure IOTask where
  name : String
  icon : Option String
  displayKey : Option String
  noop : Bool
  delayUntil : Option Int
  description : Option String
  elements : Option (List Json)
  params : Option Json

/-- Parse function of `IOTaskSchema`: `noop` is `z.boolean().default(false)`. -/
def IOTask_parse (j : Json) : Option IOTask :=
  j.asObj.bind fun flds =>
  ((jLookup flds "name").bind Json.asStr).bind fun name =>
  (zodOptional (jLookup flds "icon") Json.asStr).bind fun icon =>
  (zodOptional (jLookup flds "displayKey") Json.asStr).bind fun displayKey =>
  (zodDefault (jLookup flds "noop") Json.asBool false).bind fun noop =>
  (zodOptional (jLookup flds "delayUntil") coerceDate).bind fun delayUntil =>
  (zodOptional (jLookup flds "description") Json.asStr).bind fun description =>
  (zodOptional (jLookup flds "elements") Json.asArr).bind fun elements =>
  (zodOptional (jLookup flds "params") SerializableJson_parse).bind fun params =>
  some ⟨name, icon, displayKey, noop, delayUntil, description, elements, params⟩

/-- Output of `RunTaskBodyInputSchema` (`IOTaskSchema.extend` with the
required `idempotencyKey`). -/
structure RunTaskBodyInput extends IOTask where
  idempotencyKey : String

/-- Parse function of `RunTaskBodyInputSchema`. -/
def RunTaskBodyInput_parse (j : Json) : Option RunTaskBodyInput :=
  (IOTask_parse j).bind fun t =>
  j.asObj.bind fun flds =>
  ((jLookup flds "idempotencyKey").bind Json.asStr).map fun idempotencyKey =>
  ⟨t, idempotencyKey⟩

/-- Output of `CompleteTaskBodyInputSchema` (the `pick` of `elements`,
`description`, `params` from the run-task body, extended with the transformed
`output`). -/
structure CompleteTaskBodyOutput where
  elements : Option (List Json)
  description : Option String
  params : Option Json
  output : Json

/-- Parse function of `CompleteTaskBodyInputSchema`.  The `output` field is
`SerializableJsonSchema.optional().transform((v) =>
DeserializedJsonSchema.parse(JSON.parse(JSON.stringify(v))))`: the transform
runs even when the optional value is `undefined`, in which case the
serialize/deserialize round-trip throws (see `jsonRoundtripOpt`). -/
def CompleteTaskBodyInput_parse (j : Json) : Option CompleteTaskBodyOutput :=
  j.asObj.bind fun flds =>
  (zodOptional (jLookup flds "elements") Json.asArr).bind fun elements =>
  (zodOptional (jLookup flds "description") Json.asStr).bind fun description =>
  (zodOptional (jLookup flds "params") SerializableJson_parse).bind fun params =>
  ((jsonRoundtripOpt (jLookup flds "output")).bind DeserializedJson_parse).bind fun output =>
  some ⟨elements, description, params, output⟩

/-- Status of a task in the Task Ledger (§4.1). -/
inductive TaskStatus where
  | running
  | completed
  | errored
  | pending
deriving Repr, DecidableEq

/-- Modelled from the spec: a Task Ledger record for one idempotency key
(§4.1; the Ledger itself is repository code not under `src/`). -/
structure LedgerEntry where
  status : TaskStatus
  params : Json
  output : Option Json

/-- Modelled from the spec: the durable per-execution task store, keyed by
`(executionId, idempotencyKey)` (§2 Task Ledger). -/
abbrev Ledger := List ((String × String) × LedgerEntry)

/-- Result of a `runTask` call (§4.1). -/
inductive RunTaskResult where
  | completed (output : Json)
  | errored (e : Json)
  | conflict

/-- Look up the task stored for `(executionId, idempotencyKey)`. -/
def lookupTask (L : Ledger) (eid k : String) : Option LedgerEntry :=
  match L with
  | [] => none
  | (ek, t) :: rest =>
    if ek.1 == eid && ek.2 == k then some t else lookupTask rest eid k

/-- Modelled from the spec: `runTask(executionId, idempotencyKey, params,
sideEffect)` (§4.1), sequential case.  If no task exists for the key, the
side effect is invoked exactly once and the task is persisted `completed`
with its output (or `errored` with the failure payload).  If a `completed`
task with matching params exists, the cached output is returned and the side
effect is *not* invoked (the replay path).  A matching key with different
params is an idempotency conflict.  A call against an `errored` task with the
same params re-invokes the side effect (the Ledger does not retry internally;
a repeated call is the caller's retry).  The returned `Nat` counts the side
-effect invocations this call performed; the single-flight concurrent case
and `delayUntil` suspension are outside this sequential model. -/
def runTask (L : Ledger) (eid k : String) (p : Json) (eff : Json → Except Json Json) :
    RunTaskResult × Ledger × Nat :=
  match lookupTask L eid k with
  | none => runEffect L eid k p eff
  | some t =>
    match t.status with
    | .completed =>
      if Json.beq t.params p then (.completed (t.output.getD Json.null), L, 0)
      else (.conflict, L, 0)
    | .errored =>
      if Json.beq t.params p then runEffect L eid k p eff
      else (.conflict, L, 0)
    | _ => (.conflict, L, 0)
where
  runEffect (L : Ledger) (eid k : String) (p : Json) (eff : Json → Except Json Json) :
      RunTaskResult × Ledger × Nat :=
    match eff p with
    | .ok out => (.completed out, ((eid, k), ⟨.completed, p, some out⟩) :: L, 1)
    | .error e => (.errored e, ((eid, k), ⟨.errored, p, none⟩) :: L, 1)

/-- The Crockford base32 alphabet used by ULID. -/
def crockfordChars : List Char :=
  ['0', '1', '2', '3', '4', '5', '6', '7', '8', '9',
   'A', 'B', 'C', 'D', 'E', 'F', 'G', 'H', 'J', 'K',
   'M', 'N', 'P', 'Q', 'R', 'S', 'T', 'V', 'W', 'X', 'Y', 'Z']

/-- The Crockford base32 digit character for `n % 32`. -/
def encChar (n : Nat) : Char :=
  crockfordChars.getD (n % 32) '0'

/-- Fixed-width big-endian Crockford base32 encoding: `encodeBase32 len v`
renders the low `len` base-32 digits of `v`, most significant first. -/
def encodeBase32 : Nat → Nat → List Char
  | 0, _ => []
  | len + 1, v => encodeBase32 len (v / 32) ++ [encChar (v % 32)]

/-- Modelled from the spec: the `ulid` generator (the external `ulid`
package, not repository code), per the ULID specification — a 26-character
Crockford base32 identifier whose first 10 characters encode the 48-bit
generation time (most significant first) and whose last 16 characters encode
the 80-bit randomness. -/
def ulid (time rand : Nat) : String :=
  String.mk (encodeBase32 10 time ++ encodeBase32 16 rand)

/-- A valid auth descriptor, as the HTTP-source signer would serialize into
the `x-trigger-auth` header. -/
def exAuthDescriptor : Json :=
  Json.obj [("type", .str "oauth2"), ("accessToken", .str "tok_123")]

/-- An inbound HTTP-source header map whose `x-trigger-auth` value is the
JSON-serialized form of `exAuthDescriptor` (exactly what the documented
producer `"x-trigger-auth": JSON.stringify(options.auth)` sends). -/
def exSigningHeaders : Json := Json.obj
  [("x-trigger-key", .str "my-source-key"),
   ("x-trigger-auth", .str (jsonStringify exAuthDescriptor)),
   ("x-trigger-url", .str "https://example.com/webhook"),
   ("x-trigger-method", .str "POST"),
   ("x-trigger-headers", .str (jsonStringify (Json.obj [("content-type", .str "application/json")])))]

/-- A secure-string value whose parts violate the reassembly invariant:
one literal part but two interpolated parts. -/
def exSecureStringBad : Json := Json.obj
  [("__secureString", .bool true),
   ("strings", .arr [.str "a"]),
   ("interpolations", .arr [.str "b", .str "c"])]

/-- A secure-string input built from arbitrary literal and interpolated
parts. -/
def mkSecureStringJson (ss is' : List String) : Json := Json.obj
  [("__secureString", .bool true),
   ("strings", .arr (ss.map Json.str)),
   ("interpolations", .arr (is'.map Json.str))]

/-- An event-log input carrying every RawEvent field the claim lists except
`source`, with a numeric (epoch milliseconds) timestamp. -/
def exEventLogNoSource : Json := Json.obj
  [("id", .str "evt_1"), ("name", .str "user.created"),
   ("payload", Json.obj [("id", .num 42)]), ("timestamp", .num 1680352205000)]

/-- An event-log input carrying the claim's full RawEvent field set —
`source` included — but no `timestamp`. -/
def exEventLogNoTimestamp : Json := Json.obj
  [("id", .str "evt_1"), ("name", .str "user.created"), ("source", .str "trigger.dev"),
   ("payload", Json.obj [("id", .num 42)])]

/-- A registered-HTTP-source record without any `key` field. -/
def exHttpSourceNoKey : Json := Json.obj
  [("id", .str "src_1"), ("active", .bool true), ("url", .str "https://example.com/hook")]

/-- A task record in `completed` status, in JSON form. -/
def exTaskJson : Json := Json.obj
  [("id", .str "task_1"), ("name", .str "send-welcome-email"),
   ("idempotencyKey", .str "send-welcome-email"), ("status", .str "completed"),
   ("noop", .bool false), ("output", .str "sent")]

/-- The parsed form of `exTaskJson`. -/
def exTask : ModelTask :=
  ⟨"task_1", "send-welcome-email", "send-welcome-email", "completed", false,
   none, some (.str "sent"), none⟩

/-- Reflexivity of `Json.beq`. -/
theorem Json.beq_refl : (j : Json) → Json.beq j j = true
  | .null => rfl
  | .bool b => by simp [Json.beq]
  | .num n => by simp [Json.beq]
  | .str s => by simp [Json.beq]
  | .arr [] => by simp [Json.beq, Json.beqList]
  | .arr (a :: as) => by
    have h1 := Json.beq_refl a
    have h2 := Json.beq_refl (.arr as)
    simp only [Json.beq, Json.beqList] at *
    simp [h1, h2]
  | .obj [] => by simp [Json.beq, Json.beqFields]
  | .obj ((k, v) :: fs) => by
    have h1 := Json.beq_refl v
    have h2 := Json.beq_refl (.obj fs)
    simp only [Json.beq, Json.beqFields] at *
    simp [h1, h2]

/-- Looking up a key skips a leading field with a different key. -/
theorem jLookup_cons_ne (k' k : String) (x : Json) (flds : List (String × Json))
    (h : (k' == k) = false) : jLookup ((k', x) :: flds) k = jLookup flds k := by
  simp [jLookup, h]

/-- Parsing an array of string literals recovers the strings. -/
theorem mapOptStr_map (ss : List String) : mapOptStr (ss.map Json.str) = some ss := by
  induction ss with
  | nil => rfl
  | cons a as ih => simp [mapOptStr, Json.asStr, ih]

/-- Lexicographic order on character lists (the order underlying `String`
comparison) is preserved by appending suffixes to lists of equal length. -/
theorem lex_lt_append {l1 l2 : List Char} (t1 t2 : List Char)
    (hlen : l1.length = l2.length) (h : List.Lex (· < ·) l1 l2) :
    List.Lex (· < ·) (l1 ++ t1) (l2 ++ t2) := by
  induction h with
  | nil => simp at hlen
  | cons h ih => exact List.Lex.cons (ih (by simpa using hlen))
  | rel h => exact List.Lex.rel h

/-- Lists with a common prefix compare by their first differing character. -/
theorem lex_lt_append_right {a b : Char} (h : a < b) (l t1 t2 : List Char) :
    List.Lex (· < ·) (l ++ a :: t1) (l ++ b :: t2) := by
  induction l with
  | nil => exact List.Lex.rel h
  | cons x xs ih => exact List.Lex.cons ih

/-- The Crockford base32 alphabet is strictly increasing: digit order is
character order. -/
theorem encChar_mono : ∀ b < 32, ∀ a < b, encChar a < encChar b := by decide

/-- Length of the fixed-width rendering: `encodeBase32 len v` has length `len`. -/
theorem encodeBase32_length (len : Nat) : ∀ v, (encodeBase32 len v).length = len := by
  induction len with
  | zero => intro v; rfl
  | succ n ih => intro v; simp [encodeBase32, ih]

/-- Fixed-width big-endian base32 rendering is strictly monotone below
`32 ^ len`. -/
theorem encodeBase32_lt (len : Nat) : ∀ v1 v2, v1 < v2 → v2 < 32 ^ len →
    List.Lex (· < ·) (encodeBase32 len v1) (encodeBase32 len v2) := by
  induction len with
  | zero =>
    intro v1 v2 h12 hb
    simp only [pow_zero] at hb
    omega
  | succ n ih =>
    intro v1 v2 h12 hb
    simp only [encodeBase32]
    rcases Nat.lt_or_ge (v1 / 32) (v2 / 32) with hdiv | hge
    · refine lex_lt_append _ _ (by simp [encodeBase32_length]) (ih _ _ hdiv ?_)
      have hlt : v2 < 32 ^ n * 32 := by
        calc v2 < 32 ^ (n + 1) := hb
        _ = 32 ^ n * 32 := by ring
      exact Nat.div_lt_of_lt_mul (by omega)
    · have hdeq : v1 / 32 = v2 / 32 :=
        Nat.le_antisymm (Nat.div_le_div_right (le_of_lt h12)) hge
      have e1 := Nat.div_add_mod v1 32
      have e2 := Nat.div_add_mod v2 32
      have hmod : v1 % 32 < v2 % 32 := by omega
      rw [hdeq]
      exact lex_lt_append_right
        (encChar_mono _ (Nat.mod_lt _ (by norm_num)) _ hmod) _ _ _

/-- C2: the claim fails on the code.  The `x-trigger-auth` header below holds
the JSON-serialized form of a valid auth descriptor — deserializing it the
way the schema treats `x-trigger-headers` (first conjunct) yields a
descriptor `ConnectionAuthSchema` accepts (second conjunct) — yet
`HttpSourceRequestHeadersSchema` rejects the whole header map (third
conjunct), because its transform hands the raw header string, not its parsed
form, to `ConnectionAuthSchema.parse`, which accepts no string. -/
theorem C2_auth_header_rejected :
    jsonParse (jsonStringify exAuthDescriptor) = some exAuthDescriptor ∧
    ConnectionAuth_parse exAuthDescriptor = some ⟨"oauth2", "tok_123"⟩ ∧
    HttpSourceRequestHeaders_parse exSigningHeaders = none :=
  ⟨rfl, rfl, rfl⟩

/-- C3 counterexample: `SecureStringSchema` accepts a value with one literal
part and two interpolated parts, whose lengths violate
`strings.length = interpolations.length + 1`. -/
theorem C3_secure_string_counterexample :
    SecureString_parse exSecureStringBad = some ⟨["a"], ["b", "c"]⟩ ∧
    (["a"] : List String).length ≠ (["b", "c"] : List String).length + 1 :=
  ⟨rfl, by decide⟩

/-- C3 amended: `SecureStringSchema` accepts any pair of string arrays under
the `__secureString: true` tag — it does not enforce any relation between
the lengths of `strings` and `interpolations`. -/
theorem C3_secure_string_no_length_invariant (ss is' : List String) :
    SecureString_parse (mkSecureStringJson ss is') = some ⟨ss, is'⟩ := by
  have h1 := mapOptStr_map ss
  have h2 := mapOptStr_map is'
  simp [SecureString_parse, mkSecureStringJson, jLookup, Json.asObj, Json.asArr, h1, h2]

/-- C4 counterexample: an input carrying exactly the claim's field set —
RawEvent fields `source` included, `timestamp` omitted as the claim permits —
is rejected by `ApiEventLogSchema`, because its `timestamp` is a required
coerced date. -/
theorem C4_event_log_counterexample :
    ApiEventLog_parse exEventLogNoTimestamp = none ∧
    ApiEventLog_parse exEventLogNoSource
      = some ⟨"evt_1", "user.created", Json.obj [("id", Json.num 42)],
              none, 1680352205000, none, none⟩ :=
  ⟨rfl, rfl⟩

/-- C4 amended: `ApiEventLogSchema` has fields `{id, name, payload,
context?, timestamp, deliverAt?, deliveredAt?}`: unlike `RawEventSchema` it
has no `source` field (an input without `source` is accepted and the output
carries none), and `timestamp` is required (an input without it is
rejected), coerced to a date. -/
theorem C4_event_log_fields (id name : String) (payload : Json) (n : Int)
    (h : n.natAbs ≤ 8640000000000000) :
    ApiEventLog_parse (Json.obj
        [("id", .str id), ("name", .str name), ("payload", payload),
         ("timestamp", .num n)])
      = some ⟨id, name, payload, none, n, none, none⟩ ∧
    ApiEventLog_parse (Json.obj
        [("id", .str id), ("name", .str name), ("source", .str "trigger.dev"),
         ("payload", payload)])
      = none := by
  constructor
  · simp [ApiEventLog_parse, jLookup, Json.asObj, Json.asStr, coerceDate,
      DeserializedJson_parse, optNullableDate, h]
  · simp [ApiEventLog_parse, jLookup, Json.asObj, Json.asStr,
      DeserializedJson_parse]

/-- Witness for C4's amended statement at a concrete event. -/
theorem C4_event_log_fields_witness :
    ApiEventLog_parse (Json.obj
        [("id", .str "evt_1"), ("name", .str "user.created"),
         ("payload", Json.str "p"), ("timestamp", .num 1680352205000)])
      = some ⟨"evt_1", "user.created", Json.str "p", none, 1680352205000, none, none⟩ ∧
    ApiEventLog_parse (Json.obj
        [("id", .str "evt_1"), ("name", .str "user.created"),
         ("source", .str "trigger.dev"), ("payload", Json.str "p")])
      = none :=
  C4_event_log_fields "evt_1" "user.created" (Json.str "p") 1680352205000 (by decide)

/-- C5 counterexample: `HttpEventSourceSchema` accepts a record with no
`key` field at all, so accepted values do not carry the key. -/
theorem C5_http_source_counterexample :
    HttpEventSource_parse exHttpSourceNoKey
      = some ⟨none, none, none, true, "src_1", "https://example.com/hook"⟩ :=
  rfl

/-- C5 amended: `HttpEventSourceSchema` has no `key` field — it derives from
the update body, which omits `key` — so a `key` field in the input is
ignored entirely: parsing is unchanged by its presence, and the output
carries only `{connectionId?, secret?, data?, active, id, url}`. -/
theorem C5_http_source_key_ignored (x : Json) (flds : List (String × Json)) :
    HttpEventSource_parse (Json.obj (("key", x) :: flds))
      = HttpEventSource_parse (Json.obj flds) := by
  simp only [HttpEventSource_parse, Json.asObj, Option.some_bind,
    jLookup_cons_ne "key" "connectionId" x flds (by decide),
    jLookup_cons_ne "key" "secret" x flds (by decide),
    jLookup_cons_ne "key" "data" x flds (by decide),
    jLookup_cons_ne "key" "active" x flds (by decide),
    jLookup_cons_ne "key" "id" x flds (by decide),
    jLookup_cons_ne "key" "url" x flds (by decide)]

/-- C6 counterexample: `ExecuteJobResponseSchema` accepts the mixed shapes
the claim says are rejected — `completed: true` together with a `task`, and
`completed: false` with neither `task` nor `output`. -/
theorem C6_execute_job_response_counterexample :
    ExecuteJobResponse_parse (Json.obj
        [("executionId", .str "x1"), ("completed", .bool true), ("task", exTaskJson)])
      = some ⟨"x1", true, none, some exTask⟩ ∧
    ExecuteJobResponse_parse (Json.obj
        [("executionId", .str "x1"), ("completed", .bool false)])
      = some ⟨"x1", false, none, none⟩ :=
  ⟨rfl, rfl⟩

/-- C6 amended: in `ExecuteJobResponseSchema` the `completed` flag and the
optional `output` and `task` fields are independent: for either value of
`completed`, all four presence combinations of `output` and `task` are
accepted, with no correlation enforced. -/
theorem C6_execute_job_response_uncorrelated (eid : String) (c : Bool) :
    ExecuteJobResponse_parse (Json.obj
        [("executionId", .str eid), ("completed", .bool c)])
      = some ⟨eid, c, none, none⟩ ∧
    ExecuteJobResponse_parse (Json.obj
        [("executionId", .str eid), ("completed", .bool c), ("output", .str "out")])
      = some ⟨eid, c, some (.str "out"), none⟩ ∧
    ExecuteJobResponse_parse (Json.obj
        [("executionId", .str eid), ("completed", .bool c), ("task", exTaskJson)])
      = some ⟨eid, c, none, some exTask⟩ ∧
    ExecuteJobResponse_parse (Json.obj
        [("executionId", .str eid), ("completed", .bool c), ("output", .str "out"),
         ("task", exTaskJson)])
      = some ⟨eid, c, some (.str "out"), some exTask⟩ :=
  ⟨rfl, rfl, rfl, rfl⟩

/-- C7: `CreateExecutionResponseBodySchema` is a discriminated union on the
`ok` literal: `{ok: true, data: {id}}` and `{ok: false, error}` are accepted
into the corresponding variants, while the mixed shapes — `ok: true` without
`data`, and `ok: false` without `error` — are rejected. -/
theorem C7_create_execution_response_tagged (i e : String) :
    CreateExecutionResponseBody_parse (Json.obj
        [("ok", .bool true), ("data", Json.obj [("id", .str i)])])
      = some (.ok i) ∧
    CreateExecutionResponseBody_parse (Json.obj
        [("ok", .bool false), ("error", .str e)])
      = some (.err e) ∧
    CreateExecutionResponseBody_parse (Json.obj
        [("ok", .bool true), ("error", .str e)])
      = none ∧
    CreateExecutionResponseBody_parse (Json.obj
        [("ok", .bool false), ("data", Json.obj [("id", .str i)])])
      = none :=
  ⟨rfl, rfl, rfl, rfl⟩

/-- C1 (spec-modelled Task Ledger): for an execution `eid`, an idempotency
key `k` fresh in the ledger, and params `p`, two successive `runTask` calls
with identical `(k, p)` invoke the side effect exactly once in total (counts
1 then 0) and return the identical completed output; after the first call
the task exists in `completed` state with matching params, and the second
call returns its cached output without invoking the side effect. -/
theorem C1_runTask_idempotent_replay
    (L : Ledger) (eid k : String) (p : Json) (eff : Json → Except Json Json) (out : Json)
    (hfresh : lookupTask L eid k = none) (hok : eff p = .ok out) :
    runTask L eid k p eff
      = (.completed out, ((eid, k), ⟨.completed, p, some out⟩) :: L, 1) ∧
    lookupTask (((eid, k), ⟨.completed, p, some out⟩) :: L) eid k
      = some ⟨.completed, p, some out⟩ ∧
    runTask (((eid, k), ⟨.completed, p, some out⟩) :: L) eid k p eff
      = (.completed out, ((eid, k), ⟨.completed, p, some out⟩) :: L, 0) := by
  refine ⟨?_, ?_, ?_⟩
  · simp [runTask, hfresh, runTask.runEffect, hok]
  · simp [lookupTask]
  · simp [runTask, lookupTask, Json.beq_refl]

/-- Witness for C1 at a concrete execution, key, params and side effect. -/
theorem C1_runTask_idempotent_replay_witness :
    runTask [] "x1" "send-welcome-email" (Json.obj [("to", Json.num 42)])
        (fun _ => .ok (Json.str "sent"))
      = (.completed (.str "sent"),
         (("x1", "send-welcome-email"),
          ⟨.completed, Json.obj [("to", Json.num 42)], some (.str "sent")⟩) :: [], 1) ∧
    lookupTask
        ((("x1", "send-welcome-email"),
          ⟨.completed, Json.obj [("to", Json.num 42)], some (.str "sent")⟩) :: [])
        "x1" "send-welcome-email"
      = some ⟨.completed, Json.obj [("to", Json.num 42)], some (.str "sent")⟩ ∧
    runTask
        ((("x1", "send-welcome-email"),
          ⟨.completed, Json.obj [("to", Json.num 42)], some (.str "sent")⟩) :: [])
        "x1" "send-welcome-email" (Json.obj [("to", Json.num 42)])
        (fun _ => .ok (Json.str "sent"))
      = (.completed (.str "sent"),
         (("x1", "send-welcome-email"),
          ⟨.completed, Json.obj [("to", Json.num 42)], some (.str "sent")⟩) :: [], 0) :=
  C1_runTask_idempotent_replay [] "x1" "send-welcome-email" _ _ _ rfl rfl

/-- C8: when `id` is absent, `RawEventSchema` fills it with the freshly
generated ulid (first conjunct); a ulid is 26 characters (second); it is the
10-character base32-encoded generation time followed by the encoded
randomness (third); and ids of strictly increasing generation times within
the 48-bit range sort lexicographically below one another regardless of
randomness (fourth). -/
theorem C8_raw_event_default_id_ulid :
    (∀ (now rand : Nat) (flds : List (String × Json)) (v : RawEvent),
        jLookup flds "id" = none →
        RawEvent_parse (ulid now rand) (Json.obj flds) = some v →
        v.id = ulid now rand) ∧
    (∀ t r, (ulid t r).length = 26) ∧
    (∀ t r, (ulid t r).data = encodeBase32 10 t ++ encodeBase32 16 r ∧
        (encodeBase32 10 t).length = 10) ∧
    (∀ t1 t2 r1 r2, t1 < t2 → t2 < 2 ^ 48 → ulid t1 r1 < ulid t2 r2) := by
  refine ⟨?_, ?_, ?_, ?_⟩
  · intro now rand flds v hid hp
    simp only [RawEvent_parse, Json.asObj, Option.some_bind, hid, zodDefault,
      Option.bind_eq_some] at hp
    obtain ⟨name, hname, source, hsource, payload, hpay, ts, hts, heq⟩ := hp
    injection heq with heq
    subst heq
    rfl
  · intro t r
    show (encodeBase32 10 t ++ encodeBase32 16 r).length = 26
    simp [encodeBase32_length]
  · intro t r
    exact ⟨rfl, encodeBase32_length 10 t⟩
  · intro t1 t2 r1 r2 h12 hb
    rw [String.lt_iff_toList_lt]
    show List.Lex (· < ·) (encodeBase32 10 t1 ++ encodeBase32 16 r1)
      (encodeBase32 10 t2 ++ encodeBase32 16 r2)
    refine lex_lt_append _ _ (by simp [encodeBase32_length])
      (encodeBase32_lt 10 t1 t2 h12 ?_)
    calc t2 < 2 ^ 48 := hb
    _ < 32 ^ 10 := by norm_num

/-- Witness for C8 at concrete generation times, randomness and event. -/
theorem C8_raw_event_default_id_ulid_witness :
    (⟨ulid 1 2, "user.created", "trigger.dev", Json.str "p", none, none⟩ : RawEvent).id
      = ulid 1 2 ∧
    (ulid 1 2).length = 26 ∧
    ulid 1 2 < ulid 3 4 :=
  ⟨C8_raw_event_default_id_ulid.1 1 2 [("name", .str "user.created"), ("payload", .str "p")]
      _ rfl rfl,
   C8_raw_event_default_id_ulid.2.1 1 2,
   C8_raw_event_default_id_ulid.2.2.2 1 3 2 4 (by decide) (by decide)⟩

/-- C9: parsing a complete-task body without `output` does not succeed —
although the field is declared optional, its transform serializes the
`undefined` value and the deserialize throws — and every successfully parsed
body has a defined `output`, equal to the JSON serialize/deserialize
round-trip of the supplied value. -/
theorem C9_complete_task_output_required :
    (∀ flds : List (String × Json), jLookup flds "output" = none →
        CompleteTaskBodyInput_parse (Json.obj flds) = none) ∧
    (∀ (flds : List (String × Json)) (b : CompleteTaskBodyOutput),
        CompleteTaskBodyInput_parse (Json.obj flds) = some b →
        ∃ v, jLookup flds "output" = some v ∧
          jsonRoundtripOpt (some v) = some b.output) := by
  constructor
  · intro flds h
    simp only [CompleteTaskBodyInput_parse, Json.asObj, Option.some_bind, h]
    cases zodOptional (jLookup flds "elements") Json.asArr <;>
      cases zodOptional (jLookup flds "description") Json.asStr <;>
        cases zodOptional (jLookup flds "params") SerializableJson_parse <;>
          simp [show jsonRoundtripOpt none = none from rfl]
  · intro flds b hp
    simp only [CompleteTaskBodyInput_parse, Json.asObj, Option.some_bind,
      Option.bind_eq_some, DeserializedJson_parse, Option.some.injEq] at hp
    obtain ⟨e, he, d, hd, pr, hpr, o, ⟨w, hw, hDJ⟩, heq⟩ := hp
    subst heq
    cases hlook : jLookup flds "output" with
    | none =>
      rw [hlook] at hw
      rw [show jsonRoundtripOpt none = none from rfl] at hw
      exact Option.noConfusion hw
    | some v =>
      rw [hlook] at hw
      exact ⟨v, rfl, by rw [hw, hDJ]⟩

/-- Witness for C9: a body without `output` is rejected, and a body with a
string output parses, its output being the round-trip of the supplied
value. -/
theorem C9_complete_task_output_required_witness :
    CompleteTaskBodyInput_parse (Json.obj [("description", Json.str "d")]) = none ∧
    (∃ v, jLookup [("output", Json.str "hello")] "output" = some v ∧
        jsonRoundtripOpt (some v)
          = some (⟨none, none, none, Json.str "hello"⟩ : CompleteTaskBodyOutput).output) :=
  ⟨C9_complete_task_output_required.1 [("description", Json.str "d")] rfl,
   C9_complete_task_output_required.2 [("output", Json.str "hello")]
     ⟨none, none, none, Json.str "hello"⟩ rfl⟩

/-- C10: `noop` is `z.boolean().default(false)`: any `IOTaskSchema` or
`RunTaskBodyInputSchema` input parsed without a `noop` field yields
`noop = false`. -/
theorem C10_noop_defaults_to_false :
    (∀ (flds : List (String × Json)) (v : IOTask),
        jLookup flds "noop" = none →
        IOTask_parse (Json.obj flds) = some v → v.noop = false) ∧
    (∀ (flds : List (String × Json)) (v : RunTaskBodyInput),
        jLookup flds "noop" = none →
        RunTaskBodyInput_parse (Json.obj flds) = some v → v.noop = false) := by
  have base : ∀ (flds : List (String × Json)) (v : IOTask),
      jLookup flds "noop" = none →
      IOTask_parse (Json.obj flds) = some v → v.noop = false := by
    intro flds v hn hp
    simp only [IOTask_parse, Json.asObj, Option.some_bind, hn, zodDefault,
      Option.bind_eq_some] at hp
    obtain ⟨name, hname, icon, hicon, dk, hdk, du, hdu, de, hde, el, hel, pa, hpa, heq⟩ := hp
    injection heq with heq
    subst heq
    rfl
  refine ⟨base, ?_⟩
  intro flds v hn hp
  simp only [RunTaskBodyInput_parse, Json.asObj, Option.some_bind,
    Option.bind_eq_some, Option.map_eq_some'] at hp
  obtain ⟨t, ht, ik, hik, heq⟩ := hp
  subst heq
  exact base flds t hn ht

/-- Witness for C10 at concrete task requests without `noop`. -/
theorem C10_noop_defaults_to_false_witness :
    (⟨"send-welcome-email", none, none, false, none, none, none, none⟩ : IOTask).noop
      = false ∧
    (⟨⟨"send-welcome-email", none, none, false, none, none, none, none⟩, "k1"⟩
        : RunTaskBodyInput).noop = false :=
  ⟨C10_noop_defaults_to_false.1 [("name", Json.str "send-welcome-email")] _ rfl rfl,
   C10_noop_defaults_to_false.2
     [("name", Json.str "send-welcome-email"), ("idempotencyKey", Json.str "k1")] _ rfl rfl⟩
